import Mathlib

/-
Verification of the relevance-and-structure extraction pipeline of the
crawl4ai MCP server (src/crawl4ai_mcp_server.py): the query-driven
paragraph relevance scorer inside smart_crawl (lines 666-729) and the
knowledge-graph extractor extract_entities_and_relations (lines 229-314).

Python strings are modelled as Lean strings; character classes
(whitespace, word characters, lower/upper case) are modelled over the
ASCII range, which covers every character-class decision the source makes
on ASCII text.  The impure clock read datetime.utcnow().isoformat() is
modelled as an explicit argument, and a Python exception escaping a call
is modelled by Except.error.
-/

/-- ASCII whitespace as recognised by Python's regex \s and str.strip:
space, tab, newline, carriage return, vertical tab, form feed.
Non-ASCII Unicode whitespace is outside the modelled character range. -/
def pyIsSpace (c : Char) : Bool :=
  c == ' ' || c == '\t' || c == '\n' || c == '\r' || c == '\x0b' || c == '\x0c'

/-- Word characters of Python's regex \b and \w over the modelled ASCII
range: letters, digits and underscore. -/
def isWordChar (c : Char) : Bool := c.isAlphanum || c == '_'

/-- Python str.isascii for a single character: code point below 128. -/
def isAsciiChar (c : Char) : Bool := c.toNat < 128

/-- Python str.lower over the modelled ASCII range. -/
def pyLower (s : String) : String := String.mk (s.data.map Char.toLower)

/-- Python str.strip with no argument: drop leading and trailing
whitespace. -/
def pyStrip (cs : List Char) : List Char :=
  ((cs.dropWhile pyIsSpace).reverse.dropWhile pyIsSpace).reverse

/-- Accumulator form of Python str.split with no separator: split on runs
of whitespace, discarding empty pieces.  `cur` holds the reversed current
word. -/
def pySplitWsAux : List Char → List Char → List (List Char)
  | cur, [] => if cur.isEmpty then [] else [cur.reverse]
  | cur, c :: rest =>
    if pyIsSpace c then
      if cur.isEmpty then pySplitWsAux [] rest
      else cur.reverse :: pySplitWsAux [] rest
    else pySplitWsAux (c :: cur) rest

/-- Python str.split with no separator. -/
def pySplitWs (cs : List Char) : List (List Char) := pySplitWsAux [] cs

/-- Python's substring test `needle in hay`. -/
def isSubstring (needle : List Char) : List Char → Bool
  | [] => needle.isEmpty
  | c :: rest => needle.isPrefixOf (c :: rest) || isSubstring needle rest

/-- Python `content.split("\n\n")`: split on each non-overlapping
occurrence of the two-newline separator, scanned left to right, keeping
empty pieces. -/
def splitOnNlNl : List Char → List (List Char)
  | [] => [[]]
  | '\n' :: '\n' :: rest => [] :: splitOnNlNl rest
  | c :: rest =>
    match splitOnNlNl rest with
    | [] => [[c]]
    | p :: ps => (c :: p) :: ps

/-- The character set _WHATWG_C0_CONTROL_OR_SPACE of urllib.parse: code
points U+0000 through U+0020. -/
def isC0OrSpace (c : Char) : Bool := c.val ≤ 32

/-- scheme_chars of urllib.parse: ASCII letters, digits, and plus, minus,
dot. -/
def isSchemeChar (c : Char) : Bool :=
  c.isAlpha || c.isDigit || c == '+' || c == '-' || c == '.'

/-- The scheme-stripping step of CPython urlsplit: when the text up to the
first colon is a well-formed scheme (the colon is not first, the first
character is an ASCII letter, and every character before the colon is a
scheme character), drop the scheme and the colon. -/
def dropScheme (cs : List Char) : List Char :=
  match cs.findIdx? (fun c => c == ':') with
  | none => cs
  | some i =>
    if 0 < i ∧ (cs.take i).all isSchemeChar ∧ (cs.headD ' ').isAlpha then
      cs.drop (i + 1)
    else cs

/-- Python str.split with a one-character separator: split at every
occurrence, keeping empty pieces. -/
def splitOnChar (sep : Char) : List Char → List (List Char)
  | [] => [[]]
  | c :: rest =>
    if c = sep then [] :: splitOnChar sep rest
    else
      match splitOnChar sep rest with
      | [] => [[c]]
      | p :: ps => (c :: p) :: ps

/-- _HEX_DIGITS of the ipaddress module. -/
def hexDigits : List Char := "0123456789ABCDEFabcdef".data

/-- Decimal value of an ASCII digit string. -/
def decimalVal (cs : List Char) : Nat :=
  cs.foldl (fun acc c => acc * 10 + (c.toNat - 48)) 0

/-- Validity per ipaddress.IPv4Address._parse_octet: non-empty, ASCII
decimal digits only, at most 3 characters, no leading zero unless the
octet is exactly "0", and value at most 255. -/
def isValidOctet (cs : List Char) : Bool :=
  !cs.isEmpty && cs.all (fun c => c.isDigit) && cs.length ≤ 3 &&
    (cs == ['0'] || !(cs.headD '0' == '0')) && decimalVal cs ≤ 255

/-- Textual validity per ipaddress.IPv4Address: no slash, and exactly
four dot-separated valid octets. -/
def isValidIPv4 (cs : List Char) : Bool :=
  !cs.isEmpty && !cs.contains '/' &&
    (let octets := splitOnChar '.' cs
     octets.length == 4 && octets.all isValidOctet)

/-- Validity per ipaddress.IPv6Address._parse_hextet: hex digits only,
at most 4 of them, and non-empty (int of an empty string raises). -/
def isValidHextet (cs : List Char) : Bool :=
  cs.all (fun c => hexDigits.contains c) && cs.length ≤ 4 && !cs.isEmpty

/-- Textual validity per ipaddress.IPv6Address._ip_int_from_string
(whether parsing raises; the parsed value is irrelevant to the caller):
non-empty; at least 3 colon-separated parts; an IPv4-style last part is
validated and stands for two hextets; at most 9 parts; at most one empty
interior part (the "::" skip), a leading or trailing empty part only as
part of "::", at least one part skipped when "::" is present and exactly
8 parts otherwise; the non-skipped parts must be valid hextets. -/
def isValidIPv6NoScope (cs : List Char) : Bool :=
  if cs.isEmpty then false
  else
    let parts0 := splitOnChar ':' cs
    if parts0.length < 3 then false
    else
      let lastPart := parts0.getLastD []
      if lastPart.contains '.' && !isValidIPv4 lastPart then false
      else
        let parts :=
          if lastPart.contains '.' then parts0.dropLast ++ [['0'], ['0']]
          else parts0
        if 9 < parts.length then false
        else
          let interior := (parts.drop 1).dropLast
          let empties := interior.countP (fun p => p.isEmpty)
          if 2 ≤ empties then false
          else if empties = 1 then
            let skipIdx := 1 + interior.findIdx (fun p => p.isEmpty)
            let partsHi0 := skipIdx
            let partsLo0 := parts.length - skipIdx - 1
            let headEmpty := (parts.headD [' ']).isEmpty
            let tailEmpty := (parts.getLastD [' ']).isEmpty
            if headEmpty ∧ partsHi0 ≠ 1 then false
            else if tailEmpty ∧ partsLo0 ≠ 1 then false
            else
              let partsHi := if headEmpty then partsHi0 - 1 else partsHi0
              let partsLo := if tailEmpty then partsLo0 - 1 else partsLo0
              if 8 - (partsHi + partsLo) < 1 then false
              else
                (parts.take partsHi).all isValidHextet &&
                  (parts.drop (parts.length - partsLo)).all isValidHextet
          else
            parts.length == 8 && !(parts.headD [' ']).isEmpty &&
              !(parts.getLastD [' ']).isEmpty && parts.all isValidHextet

/-- Textual validity per ipaddress.IPv6Address including the optional
%scope_id suffix (Python 3.9+): no slash anywhere; at most one percent
sign, splitting the address from a non-empty scope id. -/
def isValidIPv6 (cs : List Char) : Bool :=
  if cs.contains '/' then false
  else
    let pct := cs.countP (fun c => c == '%')
    if pct = 0 then isValidIPv6NoScope cs
    else if pct = 1 then
      let addr := cs.takeWhile (fun c => !(c == '%'))
      let scope := (cs.dropWhile (fun c => !(c == '%'))).drop 1
      !scope.isEmpty && isValidIPv6NoScope addr
    else false

/-- The IPvFuture pattern of urllib.parse._check_bracketed_host: a
lowercase v, one or more hex digits, a dot, then one or more characters
none of which is a newline (regex dot). -/
def isIPvFuture (cs : List Char) : Bool :=
  match cs with
  | 'v' :: rest =>
    let hexRun := rest.takeWhile (fun c => hexDigits.contains c)
    let after := rest.dropWhile (fun c => hexDigits.contains c)
    !hexRun.isEmpty &&
      (match after with
       | '.' :: tail => !tail.isEmpty && tail.all (fun c => !(c == '\n'))
       | _ => false)
  | _ => false

/-- urllib.parse._check_bracketed_host (CPython 3.11+): a bracketed host
beginning with a lowercase v must match the IPvFuture pattern; any other
bracketed host must be a valid textual IPv6 address — ipaddress's
ip_address raises on anything else, and a valid IPv4 address in brackets
is rejected explicitly, so only IPv6 passes.  Returns true when the
check passes, false when CPython raises ValueError. -/
def checkBracketedHost (cs : List Char) : Bool :=
  match cs with
  | 'v' :: _ => isIPvFuture cs
  | _ => isValidIPv6 cs

/-- The netloc computation of CPython urllib.parse.urlsplit (3.11+),
restricted to what extract_entities_and_relations consumes: leading
C0-control/space characters are stripped, tab, CR and LF are removed, an
optional scheme is dropped, and when the remainder starts with two
slashes the netloc is the run of characters up to the next slash,
question mark or hash.  A netloc containing an opening square bracket
without a closing one, or vice versa, raises ValueError
"Invalid IPv6 URL"; a netloc with both brackets has the text between the
first opening bracket and the following closing bracket validated by
_check_bracketed_host, whose failure also raises ValueError (CPython
emits several distinct messages on that path; they are collapsed into
one here, since only the raising itself is observable to the extractor).
The final _checknetloc check returns immediately on an empty or
all-ASCII netloc and can raise only for certain non-ASCII netlocs under
NFKC normalization; non-ASCII netlocs are outside this file's modelled
ASCII range, and the check is modelled as its ASCII fast path, which
never raises. -/
def urlsplitNetloc (url : String) : Except String String :=
  let cs := (url.data.dropWhile isC0OrSpace).filter
    (fun c => !(c == '\t' || c == '\r' || c == '\n'))
  let cs := dropScheme cs
  if cs.take 2 = ['/', '/'] then
    let netloc := (cs.drop 2).takeWhile
      (fun c => !(c == '/' || c == '?' || c == '#'))
    if ('\x5b' ∈ netloc ∧ '\x5d' ∉ netloc) ∨ ('\x5d' ∈ netloc ∧ '\x5b' ∉ netloc) then
      .error "Invalid IPv6 URL"
    else if '\x5b' ∈ netloc ∧ '\x5d' ∈ netloc then
      let bracketedHost :=
        ((netloc.dropWhile (fun c => !(c == '\x5b'))).drop 1).takeWhile
          (fun c => !(c == '\x5d'))
      if checkBracketedHost bracketedHost then .ok (String.mk netloc)
      else .error "bracketed host is invalid"
    else .ok (String.mk netloc)
  else .ok ""

/-- The fixed topic vocabulary, in the source's alternation order
(source lines 273-277). -/
def topicKeywords : List String :=
  ["api", "sdk", "authentication", "authorization", "database",
   "deployment", "configuration", "tutorial", "guide", "documentation",
   "example", "reference", "endpoint", "webhook", "integration",
   "security", "performance", "optimization", "testing", "debugging"]

/-- A keyword matches at the head of `cs` when its characters are a
prefix of `cs` and the character after the prefix, if any, is not a word
character (the regex's trailing word boundary). -/
def keywordAt (cs : List Char) (kw : String) : Bool :=
  kw.data.isPrefixOf cs &&
    (match cs.drop kw.data.length with
     | [] => true
     | c :: _ => !isWordChar c)

/-- The first alternative of the topic regex that matches at the head of
`cs` (regex alternation is leftmost-first). -/
def firstKeywordAt (cs : List Char) : Option String :=
  topicKeywords.find? (keywordAt cs)

/-- re.findall of the topic pattern over lower-cased content: scan left
to right; a match is attempted only at a word boundary, i.e. when the
previous character is not a word character.  Every keyword consists
solely of word characters and must be followed by a word boundary, so no
match of the non-overlapping scan can begin strictly inside or directly
after another match; the scan may therefore advance one character at a
time, tracking only whether the previous character was a word
character. -/
def scanTopics : Bool → List Char → List String
  | _, [] => []
  | prevWord, c :: rest =>
    match (if prevWord then none else firstKeywordAt (c :: rest)) with
    | some kw => kw :: scanTopics (isWordChar c) rest
    | none => scanTopics (isWordChar c) rest

/-- Python set(...) collection of the matches: deduplicate keeping first
occurrences.  Python's set iteration order is unspecified; every claim
treats the topic collection as unordered, so the order chosen here is
immaterial. -/
def dedupFirstAux : List String → List String → List String
  | _, [] => []
  | seen, x :: xs =>
    if x ∈ seen then dedupFirstAux seen xs
    else x :: dedupFirstAux (x :: seen) xs

/-- Deduplication keeping first occurrences. -/
def dedupFirst (l : List String) : List String := dedupFirstAux [] l

/-- Python str.title over the modelled ASCII range: a letter following a
non-letter is uppercased, a letter following a letter is lowercased. -/
def pyTitleAux : Bool → List Char → List Char
  | _, [] => []
  | prevCased, c :: rest =>
    if c.isAlpha then
      (if prevCased then c.toLower else c.toUpper) :: pyTitleAux true rest
    else c :: pyTitleAux false rest

/-- Python str.title. -/
def pyTitle (s : String) : String := String.mk (pyTitleAux false s.data)

/-- The character class of the link pattern (source line 300): anything
but whitespace and the excluded delimiter characters (angle brackets,
double quote, braces, pipe, backslash, caret, backtick, square
brackets). -/
def isLinkChar (c : Char) : Bool :=
  !pyIsSpace c &&
    !(c == '\x3c' || c == '\x3e' || c == '\x22' || c == '\x7b' ||
      c == '\x7d' || c == '\x7c' || c == '\x5c' || c == '\x5e' ||
      c == '\x60' || c == '\x5b' || c == '\x5d')

/-- Attempt to match the link pattern at the head of `cs`: the literal
scheme prefix (with the optional s resolved by the usual backtracking)
followed by a non-empty maximal run of link characters. -/
def tryLinkAt (cs : List Char) : Option (List Char) :=
  if "https://".data.isPrefixOf cs then
    let run := (cs.drop 8).takeWhile isLinkChar
    if run.isEmpty then none else some ("https://".data ++ run)
  else if "http://".data.isPrefixOf cs then
    let run := (cs.drop 7).takeWhile isLinkChar
    if run.isEmpty then none else some ("http://".data ++ run)
  else none

/-- re.findall of the link pattern: non-overlapping left-to-right scan,
resuming after each match.  The fuel argument is an upper bound on the
number of scan steps; each step consumes at least one character, so the
text length always suffices. -/
def findLinksAux : Nat → List Char → List (List Char)
  | _, [] => []
  | 0, _ :: _ => []
  | fuel + 1, c :: rest =>
    match tryLinkAt (c :: rest) with
    | some link => link :: findLinksAux fuel (rest.drop (link.length - 1))
    | none => findLinksAux fuel rest

/-- All matches of the link pattern in document order. -/
def findLinks (cs : List Char) : List (List Char) := findLinksAux cs.length cs

/-- The three entity dict shapes produced by
extract_entities_and_relations, discriminated by their "type" field. -/
inductive Entity where
  | webPage (url title domain crawled_at : String)
  | domainE (name : String)
  | topic (name : String)
deriving DecidableEq

/-- A relation dict with its five fields. -/
structure RelationEdge where
  from_type : String
  from_id : String
  to_type : String
  to_id : String
  relation : String
deriving DecidableEq

/-- The link loop (source lines 303-312): for each link, parse its
netloc; emit a LINKS_TO relation when the netloc is non-empty and differs
from the page's domain.  A parse error propagates, as the Python
exception would abort the whole call. -/
def linkRelations (url domain : String) :
    List (List Char) → Except String (List RelationEdge)
  | [] => .ok []
  | l :: ls =>
    match urlsplitNetloc (String.mk l) with
    | .error e => .error e
    | .ok n =>
      match linkRelations url domain ls with
      | .error e => .error e
      | .ok rest =>
        if n ≠ "" ∧ n ≠ domain then
          .ok (⟨"WebPage", url, "WebPage", String.mk l, "LINKS_TO"⟩ :: rest)
        else .ok rest

/-- extract_entities_and_relations(url, title, content) (source lines
229-314).  The clock read datetime.utcnow().isoformat() is modelled by
the explicit `now` argument; it is the only environment read the function
performs.  The Python `title or url` fallback maps the empty title to the
url. -/
def extract_entities_and_relations (url title content now : String) :
    Except String (List Entity × List RelationEdge) :=
  match urlsplitNetloc url with
  | .error e => .error e
  | .ok domain =>
    let pageEntity : Entity :=
      .webPage url (if title = "" then url else title) domain now
    let topics := dedupFirst (scanTopics false (pyLower content).data)
    let topicEntities := topics.map (fun t => Entity.topic (pyTitle t))
    let topicRels : List RelationEdge :=
      topics.map (fun t => ⟨"WebPage", url, "Topic", pyTitle t, "COVERS_TOPIC"⟩)
    let belongs : RelationEdge := ⟨"WebPage", url, "Domain", domain, "BELONGS_TO"⟩
    match linkRelations url domain ((findLinks content.data).take 20) with
    | .error e => .error e
    | .ok linkRels =>
      .ok ([pageEntity, .domainE domain] ++ topicEntities,
           [belongs] ++ topicRels ++ linkRels)

/-- The entity list of a successful extraction, empty when the call
raised. -/
def okEntities (r : Except String (List Entity × List RelationEdge)) :
    List Entity :=
  match r with
  | .ok (es, _) => es
  | .error _ => []

/-- The relation list of a successful extraction, empty when the call
raised. -/
def okRelations (r : Except String (List Entity × List RelationEdge)) :
    List RelationEdge :=
  match r with
  | .ok (_, rs) => rs
  | .error _ => []

/-- query.lower().split() (source line 670): the query token list, with
multiplicity. -/
def query_terms (query : String) : List String :=
  (pySplitWs (pyLower query).data).map String.mk

/-- The per-paragraph score (source line 696):
sum(1 for term in query_terms if term in para_lower). -/
def paragraphScore (terms : List String) (para : String) : Nat :=
  terms.countP (fun t => isSubstring t.data (pyLower para).data)

/-- The scoring loop (source lines 688-699): paragraphs are the "\n\n"
split of the content; a paragraph whose trimmed length is below 50 is
skipped; a surviving paragraph is kept, in document order, exactly when
its score is positive. -/
def scored_paragraphs (content query : String) : List (Nat × String) :=
  let terms := query_terms query
  (splitOnNlNl content.data).filterMap (fun p =>
    if (pyStrip p).length < 50 then none
    else
      let s := paragraphScore terms (String.mk p)
      if 0 < s then some (s, String.mk p) else none)

/-- Stable descending insertion by score: the incoming element, which
precedes the list elements in document order, is placed before the first
element whose score does not exceed its own. -/
def insertDesc (x : Nat × String) :
    List (Nat × String) → List (Nat × String)
  | [] => [x]
  | y :: ys => if y.1 ≤ x.1 then x :: y :: ys else y :: insertDesc x ys

/-- scored_paragraphs.sort(key=lambda x: x[0], reverse=True) (source line
702).  CPython's sort is stable and reverse=True keeps equal-keyed
elements in their original order; that ordering is unique and is computed
here by stable insertion. -/
def sortScoredDesc : List (Nat × String) → List (Nat × String)
  | [] => []
  | x :: xs => insertDesc x (sortScoredDesc xs)

/-- The ranked output of the smart_crawl scorer. -/
def smart_crawl_scored (content query : String) : List (Nat × String) :=
  sortScoredDesc (scored_paragraphs content query)

/-- Membership-wise set equality of lists. -/
def setEq {α : Type} (as bs : List α) : Prop := ∀ x, x ∈ as ↔ x ∈ bs

/-- Erase the capture timestamp of a WebPage entity. -/
def scrubTime : Entity → Entity
  | .webPage u t d _ => .webPage u t d ""
  | e => e

/-- Modelled from the spec: the spec's scoring rule, stated for
comparison with the source's rule — the count of DISTINCT query terms
(the query lower-cased and whitespace-split into a set of tokens) that
occur as substrings of the lower-cased segment. -/
def specDistinctScore (query para : String) : Nat :=
  (dedupFirst (query_terms query)).countP
    (fun t => isSubstring t.data (pyLower para).data)

example : pySplitWs "  a bc  d ".data = [['a'], ['b', 'c'], ['d']] := by decide

example : splitOnNlNl "a\n\n\n\nb".data = [['a'], [], ['b']] := by decide

example : urlsplitNetloc "https://docs.example.com/auth" = .ok "docs.example.com" := rfl

example : urlsplitNetloc "notaurl" = .ok "" := rfl

example : urlsplitNetloc "http://\x5b" = .error "Invalid IPv6 URL" := rfl

example : urlsplitNetloc "http://\x5babc\x5d" = .error "bracketed host is invalid" := rfl

example : urlsplitNetloc "http://\x5b1.2.3.4\x5d" = .error "bracketed host is invalid" := rfl

example : urlsplitNetloc "http://\x5b::1\x5d/x" = .ok "\x5b::1\x5d" := rfl

example : urlsplitNetloc "http://\x5b::ffff:1.2.3.4\x5d" = .ok "\x5b::ffff:1.2.3.4\x5d" := rfl

example : urlsplitNetloc "http://\x5bfe80::1%eth0\x5d" = .ok "\x5bfe80::1%eth0\x5d" := rfl

example : urlsplitNetloc "http://\x5bv1f.future\x5d" = .ok "\x5bv1f.future\x5d" := rfl

example : urlsplitNetloc "http://\x5b1:2:3:4::5:6:7:8\x5d" = .error "bracketed host is invalid" := rfl

example : scanTopics false (pyLower "Authentication and authentication").data =
    ["authentication", "authentication"] := by decide

example : scanTopics false (pyLower "oauthentication").data = [] := by decide

example : findLinks "see https://api.other.com/ref end".data =
    ["https://api.other.com/ref".data] := by decide

example : pyTitle "authentication" = "Authentication" := by decide

/-! Lemmas about the stable descending sort. -/

theorem mem_insertDesc {x a : Nat × String} {l : List (Nat × String)} :
    x ∈ insertDesc a l ↔ x = a ∨ x ∈ l := by
  induction l with
  | nil => simp [insertDesc]
  | cons y ys ih =>
    by_cases h : y.1 ≤ a.1
    · simp [insertDesc, h]
    · simp only [insertDesc, if_neg h, List.mem_cons, ih]
      tauto

theorem pairwise_insertDesc {a : Nat × String} {l : List (Nat × String)}
    (h : l.Pairwise (fun p q => q.1 ≤ p.1)) :
    (insertDesc a l).Pairwise (fun p q => q.1 ≤ p.1) := by
  induction l with
  | nil => simp [insertDesc]
  | cons y ys ih =>
    rcases List.pairwise_cons.mp h with ⟨hy, hys⟩
    by_cases hle : y.1 ≤ a.1
    · simp only [insertDesc, if_pos hle]
      refine List.pairwise_cons.mpr ⟨?_, h⟩
      intro z hz
      rcases List.mem_cons.mp hz with rfl | hz
      · exact hle
      · exact le_trans (hy z hz) hle
    · simp only [insertDesc, if_neg hle]
      refine List.pairwise_cons.mpr ⟨?_, ih hys⟩
      intro z hz
      rcases mem_insertDesc.mp hz with rfl | hz
      · exact Nat.le_of_lt (Nat.lt_of_not_le hle)
      · exact hy z hz

theorem filter_insertDesc (a : Nat × String) (l : List (Nat × String)) (s : Nat) :
    (insertDesc a l).filter (fun p => p.1 == s) =
      if a.1 = s then a :: l.filter (fun p => p.1 == s)
      else l.filter (fun p => p.1 == s) := by
  induction l with
  | nil =>
    by_cases h : a.1 = s
    · rw [if_pos h]
      simp [insertDesc, List.filter_cons, beq_iff_eq, h]
    · rw [if_neg h]
      simp [insertDesc, List.filter_cons, beq_iff_eq, h]
  | cons y ys ih =>
    by_cases hle : y.1 ≤ a.1
    · rw [insertDesc, if_pos hle]
      by_cases h : a.1 = s
      · rw [if_pos h]
        simp [List.filter_cons, beq_iff_eq, h]
      · rw [if_neg h]
        simp [List.filter_cons, beq_iff_eq, h]
    · rw [insertDesc, if_neg hle]
      by_cases hy : y.1 = s
      · have ha : ¬ a.1 = s := fun h => hle (le_of_eq (hy.trans h.symm))
        rw [if_neg ha, List.filter_cons, List.filter_cons]
        simp only [ih, if_neg ha]
      · by_cases h : a.1 = s
        · rw [if_pos h, List.filter_cons]
          simp only [ih, if_pos h]
          simp [beq_iff_eq, hy]
        · rw [if_neg h, List.filter_cons, List.filter_cons]
          simp only [ih, if_neg h]

theorem sortScoredDesc_pairwise (l : List (Nat × String)) :
    (sortScoredDesc l).Pairwise (fun p q => q.1 ≤ p.1) := by
  induction l with
  | nil => simp [sortScoredDesc]
  | cons x xs ih => exact pairwise_insertDesc ih

theorem filter_sortScoredDesc (l : List (Nat × String)) (s : Nat) :
    (sortScoredDesc l).filter (fun p => p.1 == s) =
      l.filter (fun p => p.1 == s) := by
  induction l with
  | nil => rfl
  | cons x xs ih =>
    by_cases h : x.1 = s <;>
      simp [sortScoredDesc, filter_insertDesc, h, ih, List.filter_cons]

theorem mem_sortScoredDesc {x : Nat × String} {l : List (Nat × String)} :
    x ∈ sortScoredDesc l ↔ x ∈ l := by
  induction l with
  | nil => simp [sortScoredDesc]
  | cons y ys ih => simp [sortScoredDesc, mem_insertDesc, ih]

/-- Membership in the pre-sort kept list comes with the defining score and
length facts of the loop body. -/
theorem mem_scored_paragraphs {sp : Nat × String} {content query : String}
    (h : sp ∈ scored_paragraphs content query) :
    ∃ p ∈ splitOnNlNl content.data,
      sp = (paragraphScore (query_terms query) (String.mk p), String.mk p) ∧
      50 ≤ (pyStrip p).length ∧
      0 < paragraphScore (query_terms query) (String.mk p) := by
  rcases List.mem_filterMap.mp h with ⟨p, hp, hf⟩
  refine ⟨p, hp, ?_⟩
  by_cases hlen : (pyStrip p).length < 50
  · rw [if_pos hlen] at hf
    cases hf
  · rw [if_neg hlen] at hf
    by_cases hs : 0 < paragraphScore (query_terms query) (String.mk p)
    · rw [if_pos hs] at hf
      cases hf
      exact ⟨rfl, Nat.le_of_not_lt hlen, hs⟩
    · rw [if_neg hs] at hf
      cases hf

/-- C5: for every content and query, the kept segments are sorted in
descending order of score, and any two kept segments with equal score
appear in the ranked output in the same relative order as in the input
content: for each score value, the ranked output filtered to that score
equals the document-order kept list filtered to that score. -/
theorem smart_crawl_scored_sorted_stable (content query : String) :
    (smart_crawl_scored content query).Pairwise (fun p q => q.1 ≤ p.1) ∧
    ∀ s : Nat,
      (smart_crawl_scored content query).filter (fun p => p.1 == s) =
        (scored_paragraphs content query).filter (fun p => p.1 == s) :=
  ⟨sortScoredDesc_pairwise _, fun s => filter_sortScoredDesc _ s⟩

/-- C8: a paragraph whose trimmed length is shorter than 50 characters
never appears in the scorer's output, regardless of how many query terms
it contains. -/
theorem short_paragraphs_never_kept (content query : String) :
    ∀ sp ∈ smart_crawl_scored content query,
      50 ≤ (pyStrip sp.2.data).length := by
  intro sp hsp
  rcases mem_scored_paragraphs (mem_sortScoredDesc.mp hsp) with
    ⟨p, _, rfl, hlen, _⟩
  exact hlen

/-- Witness for C8 at a concrete kept paragraph. -/
theorem short_paragraphs_never_kept_witness :
    50 ≤ (pyStrip
      (2, "This paragraph is long enough and it talks about api twice api here.").2.data).length :=
  short_paragraphs_never_kept
    "This paragraph is long enough and it talks about api twice api here."
    "api api"
    (2, "This paragraph is long enough and it talks about api twice api here.")
    (by decide)

/-- C4 fails as stated: with query "api api" the single kept paragraph's
score is 2, while the number of DISTINCT query terms occurring in it is
1 — a token repeated in the query is counted once per repetition, not
once. -/
theorem score_not_distinct_count :
    ¬ (∀ sp ∈ scored_paragraphs
          "This paragraph is long enough and it talks about api twice api here."
          "api api",
        sp.1 = specDistinctScore "api api" sp.2) := by decide

/-- C4 amended: each surviving segment's relevance score equals the
number of tokens of the whitespace-split lower-cased query, counted with
multiplicity, that occur as substrings of the lower-cased segment; a term
occurring many times in the segment still counts once per query token,
but a token repeated in the query contributes once per repetition. -/
theorem score_eq_term_multiplicity_count (content query : String) :
    ∀ sp ∈ scored_paragraphs content query,
      sp.1 = paragraphScore (query_terms query) sp.2 ∧ 0 < sp.1 := by
  intro sp hsp
  rcases mem_scored_paragraphs hsp with ⟨p, _, rfl, _, hpos⟩
  exact ⟨rfl, hpos⟩

/-- Witness for the amended C4 at a concrete kept paragraph. -/
theorem score_eq_term_multiplicity_count_witness :
    ((2, "This paragraph is long enough and it talks about api twice api here.") :
        Nat × String).1 =
      paragraphScore (query_terms "api api")
        ((2, "This paragraph is long enough and it talks about api twice api here.") :
          Nat × String).2 ∧
    0 < ((2, "This paragraph is long enough and it talks about api twice api here.") :
        Nat × String).1 :=
  score_eq_term_multiplicity_count
    "This paragraph is long enough and it talks about api twice api here."
    "api api"
    (2, "This paragraph is long enough and it talks about api twice api here.")
    (by decide)

/-! Lemmas about the extractor. -/

/-- The extractor propagates a url-parse error unchanged. -/
theorem extract_eq_error {url : String} (title content now : String)
    {e : String} (h : urlsplitNetloc url = .error e) :
    extract_entities_and_relations url title content now = .error e := by
  unfold extract_entities_and_relations
  rw [h]

/-- The extractor propagates a link-parse error unchanged. -/
theorem extract_eq_error_links {url domain : String} (title content now : String)
    {e : String} (hu : urlsplitNetloc url = .ok domain)
    (hl : linkRelations url domain ((findLinks content.data).take 20) = .error e) :
    extract_entities_and_relations url title content now = .error e := by
  unfold extract_entities_and_relations
  rw [hu]
  dsimp only
  rw [hl]

/-- The successful-outcome shape of the extractor. -/
theorem extract_eq_ok {url domain : String} (title content now : String)
    {linkRels : List RelationEdge}
    (hu : urlsplitNetloc url = .ok domain)
    (hl : linkRelations url domain ((findLinks content.data).take 20) = .ok linkRels) :
    extract_entities_and_relations url title content now =
      .ok
        ([Entity.webPage url (if title = "" then url else title) domain now,
          Entity.domainE domain] ++
            (dedupFirst (scanTopics false (pyLower content).data)).map
              (fun t => Entity.topic (pyTitle t)),
         ⟨"WebPage", url, "Domain", domain, "BELONGS_TO"⟩ ::
           ((dedupFirst (scanTopics false (pyLower content).data)).map
               (fun t =>
                 (⟨"WebPage", url, "Topic", pyTitle t, "COVERS_TOPIC"⟩ :
                   RelationEdge)) ++
             linkRels)) := by
  unfold extract_entities_and_relations
  rw [hu]
  dsimp only
  rw [hl]
  rfl

/-- A matched link contains no square bracket: its scheme prefix has
none, and its remaining characters all pass the link character class,
which excludes both brackets. -/
theorem tryLinkAt_no_brackets {cs l : List Char} (h : tryLinkAt cs = some l) :
    '\x5b' ∉ l ∧ '\x5d' ∉ l := by
  simp only [tryLinkAt] at h
  split at h
  · split at h
    · cases h
    · injection h with h
      subst h
      constructor <;> intro hm <;> rcases List.mem_append.mp hm with hm | hm
      · exact absurd hm (by decide)
      · exact absurd (List.mem_takeWhile_imp hm) (by decide)
      · exact absurd hm (by decide)
      · exact absurd (List.mem_takeWhile_imp hm) (by decide)
  · split at h
    · split at h
      · cases h
      · injection h with h
        subst h
        constructor <;> intro hm <;> rcases List.mem_append.mp hm with hm | hm
        · exact absurd hm (by decide)
        · exact absurd (List.mem_takeWhile_imp hm) (by decide)
        · exact absurd hm (by decide)
        · exact absurd (List.mem_takeWhile_imp hm) (by decide)
    · cases h

/-- No match of the link scan contains a square bracket. -/
theorem findLinksAux_no_brackets :
    ∀ (n : Nat) (cs : List Char), ∀ l ∈ findLinksAux n cs,
      '\x5b' ∉ l ∧ '\x5d' ∉ l := by
  intro n
  induction n with
  | zero =>
    intro cs l hl
    cases cs with
    | nil => cases hl
    | cons c rest => cases hl
  | succ m ih =>
    intro cs l hl
    cases cs with
    | nil => cases hl
    | cons c rest =>
      simp only [findLinksAux] at hl
      split at hl
      · rcases List.mem_cons.mp hl with rfl | hl
        · rename_i link heq
          exact tryLinkAt_no_brackets heq
        · exact ih _ _ hl
      · exact ih _ _ hl

/-- The scheme-stripping step returns a sublist of its input. -/
theorem dropScheme_sublist (cs : List Char) :
    List.Sublist (dropScheme cs) cs := by
  unfold dropScheme
  split
  · exact List.Sublist.refl cs
  · split
    · exact List.drop_sublist _ cs
    · exact List.Sublist.refl cs

/-- The computed netloc is a sublist of the scheme-stripped text. -/
theorem netloc_sublist (cs : List Char) :
    List.Sublist
      (((dropScheme cs).drop 2).takeWhile
        (fun c => !(c == '/' || c == '?' || c == '#')))
      cs :=
  List.Sublist.trans (List.takeWhile_sublist _)
    (List.Sublist.trans (List.drop_sublist _ _) (dropScheme_sublist cs))

/-- The preprocessing (lstrip of C0/space, removal of tab, CR, LF)
returns a sublist of its input. -/
theorem preprocess_sublist (l : List Char) :
    List.Sublist
      ((l.dropWhile isC0OrSpace).filter
        (fun c => !(c == '\t' || c == '\r' || c == '\n')))
      l :=
  List.Sublist.trans (List.filter_sublist _) (List.dropWhile_sublist _)

/-- A bracket-free string parses to some netloc without raising: both
bracket checks of the modelled urlsplit look only at brackets inside the
netloc, which is a sublist of the input. -/
theorem urlsplitNetloc_ok_of_no_brackets {l : List Char}
    (h5b : '\x5b' ∉ l) (h5d : '\x5d' ∉ l) :
    ∃ n, urlsplitNetloc (String.mk l) = .ok n := by
  unfold urlsplitNetloc
  dsimp only
  split
  · rw [if_neg]
    · rw [if_neg]
      · exact ⟨_, rfl⟩
      · rintro ⟨hin, _⟩
        exact h5b (((netloc_sublist _).trans (preprocess_sublist l)).subset hin)
    · rintro (⟨hin, _⟩ | ⟨hin, _⟩)
      · exact h5b (((netloc_sublist _).trans (preprocess_sublist l)).subset hin)
      · exact h5d (((netloc_sublist _).trans (preprocess_sublist l)).subset hin)
  · exact ⟨"", rfl⟩

/-- Every relation produced by the link loop comes from one of the given
links, carries the LINKS_TO shape, and has a non-empty target netloc that
differs from the page's domain. -/
theorem linkRelations_mem {url domain : String} :
    ∀ {links : List (List Char)} {lr : List RelationEdge},
      linkRelations url domain links = .ok lr →
      ∀ r ∈ lr, ∃ l ∈ links, ∃ n : String,
        r = ⟨"WebPage", url, "WebPage", String.mk l, "LINKS_TO"⟩ ∧
        urlsplitNetloc (String.mk l) = .ok n ∧ n ≠ "" ∧ n ≠ domain := by
  intro links
  induction links with
  | nil =>
    intro lr h r hr
    injection h with h
    subst h
    cases hr
  | cons l ls ih =>
    intro lr h r hr
    simp only [linkRelations] at h
    split at h
    · cases h
    · rename_i n hn
      split at h
      · cases h
      · rename_i rest hrest
        split at h
        · rename_i hc
          injection h with h
          subst h
          rcases List.mem_cons.mp hr with rfl | hr
          · exact ⟨l, List.mem_cons_self _ _, n, rfl, hn, hc⟩
          · rcases ih hrest r hr with ⟨l', hl', hrest'⟩
            exact ⟨l', List.mem_cons_of_mem _ hl', hrest'⟩
        · injection h with h
          subst h
          rcases ih hrest r hr with ⟨l', hl', hrest'⟩
          exact ⟨l', List.mem_cons_of_mem _ hl', hrest'⟩

/-- The link loop emits at most one relation per examined link. -/
theorem linkRelations_length {url domain : String} :
    ∀ {links : List (List Char)} {lr : List RelationEdge},
      linkRelations url domain links = .ok lr → lr.length ≤ links.length := by
  intro links
  induction links with
  | nil =>
    intro lr h
    injection h with h
    subst h
    exact Nat.le_refl 0
  | cons l ls ih =>
    intro lr h
    simp only [linkRelations] at h
    split at h
    · cases h
    · split at h
      · cases h
      · rename_i rest hrest
        split at h
        · injection h with h
          subst h
          exact Nat.succ_le_succ (ih hrest)
        · injection h with h
          subst h
          exact Nat.le_succ_of_le (ih hrest)

/-- The link loop succeeds on every list of bracket-free links. -/
theorem linkRelations_ok_of_no_brackets {url domain : String} :
    ∀ {links : List (List Char)},
      (∀ l ∈ links, '\x5b' ∉ l ∧ '\x5d' ∉ l) →
      ∃ lr, linkRelations url domain links = .ok lr := by
  intro links
  induction links with
  | nil => exact fun _ => ⟨[], rfl⟩
  | cons l ls ih =>
    intro h
    rcases h l (List.mem_cons_self _ _) with ⟨h5b, h5d⟩
    rcases urlsplitNetloc_ok_of_no_brackets h5b h5d with ⟨n, hn⟩
    rcases ih (fun l' hl' => h l' (List.mem_cons_of_mem _ hl')) with ⟨rest, hrest⟩
    simp only [linkRelations]
    rw [hn, hrest]
    dsimp only
    by_cases hc : n ≠ "" ∧ n ≠ domain
    · rw [if_pos hc]
      exact ⟨_, rfl⟩
    · rw [if_neg hc]
      exact ⟨rest, rfl⟩

/-- The link loop always succeeds on the scanner's matches: matched links
never contain a square bracket, the only characters on which the
modelled urlsplit can raise. -/
theorem linkRelations_findLinks_ok (url domain content : String) :
    ∃ lr, linkRelations url domain ((findLinks content.data).take 20) = .ok lr :=
  linkRelations_ok_of_no_brackets
    (fun l hl =>
      findLinksAux_no_brackets content.data.length content.data l
        ((List.take_sublist _ _).subset hl))

/-- Membership in the deduplicated list: the element occurs in the input
and not among the already-seen elements. -/
theorem mem_dedupFirstAux {x : String} :
    ∀ (l seen : List String),
      x ∈ dedupFirstAux seen l ↔ x ∈ l ∧ x ∉ seen := by
  intro l
  induction l with
  | nil => intro seen; simp [dedupFirstAux]
  | cons y ys ih =>
    intro seen
    simp only [dedupFirstAux]
    by_cases hy : y ∈ seen
    · rw [if_pos hy, ih]
      constructor
      · rintro ⟨hxs, hns⟩
        exact ⟨List.mem_cons_of_mem _ hxs, hns⟩
      · rintro ⟨hxc, hns⟩
        rcases List.mem_cons.mp hxc with rfl | hxs
        · exact absurd hy hns
        · exact ⟨hxs, hns⟩
    · rw [if_neg hy]
      constructor
      · intro hmem
        rcases List.mem_cons.mp hmem with rfl | hrec
        · exact ⟨List.mem_cons_self _ _, hy⟩
        · rcases (ih _).mp hrec with ⟨hxs, hns⟩
          exact ⟨List.mem_cons_of_mem _ hxs,
            fun hseen => hns (List.mem_cons_of_mem _ hseen)⟩
      · rintro ⟨hxc, hns⟩
        rcases List.mem_cons.mp hxc with rfl | hxs
        · exact List.mem_cons_self _ _
        · by_cases hxy : x = y
          · subst hxy
            exact List.mem_cons_self _ _
          · refine List.mem_cons_of_mem _ ((ih _).mpr ⟨hxs, fun hm => ?_⟩)
            rcases List.mem_cons.mp hm with hm | hm
            · exact hxy hm
            · exact hns hm

/-- Membership in the deduplicated list equals membership in the input. -/
theorem mem_dedupFirst {x : String} {l : List String} :
    x ∈ dedupFirst l ↔ x ∈ l := by
  rw [dedupFirst, mem_dedupFirstAux]
  simp

/-- The deduplicated list has no duplicates. -/
theorem dedupFirst_nodup (l : List String) : (dedupFirst l).Nodup := by
  suffices h : ∀ (l seen : List String), (dedupFirstAux seen l).Nodup from h l []
  intro l
  induction l with
  | nil => intro seen; simp [dedupFirstAux]
  | cons y ys ih =>
    intro seen
    simp only [dedupFirstAux]
    by_cases hy : y ∈ seen
    · rw [if_pos hy]
      exact ih _
    · rw [if_neg hy]
      refine List.nodup_cons.mpr ⟨fun hmem => ?_, ih _⟩
      exact ((mem_dedupFirstAux _ _).mp hmem).2 (List.mem_cons_self _ _)

/-- Every match of the topic scan is one of the fixed keywords. -/
theorem mem_scanTopics_keywords :
    ∀ (cs : List Char) (b : Bool), ∀ kw ∈ scanTopics b cs,
      kw ∈ topicKeywords := by
  intro cs
  induction cs with
  | nil =>
    intro b kw h
    cases h
  | cons c rest ih =>
    intro b kw h
    simp only [scanTopics] at h
    split at h
    · rename_i kw' heq
      rcases List.mem_cons.mp h with rfl | h
      · by_cases hb : b
        · rw [if_pos hb] at heq
          cases heq
        · rw [if_neg hb] at heq
          exact List.mem_of_find?_eq_some heq
      · exact ih _ _ h
    · exact ih _ _ h

/-- Reduction of okEntities on a successful result. -/
theorem okEntities_ok (es : List Entity) (rs : List RelationEdge) :
    okEntities (.ok (es, rs)) = es := rfl

/-- Reduction of okRelations on a successful result. -/
theorem okRelations_ok (es : List Entity) (rs : List RelationEdge) :
    okRelations (.ok (es, rs)) = rs := rfl

/-- Reduction of okEntities on an error. -/
theorem okEntities_error (e : String) : okEntities (.error e) = [] := rfl

/-- Reduction of okRelations on an error. -/
theorem okRelations_error (e : String) : okRelations (.error e) = [] := rfl

/-- Counting an image under a map that is injective on a covering list:
a deduplicated list contributes one occurrence when the element is
present, none otherwise. -/
theorem count_map_eq_of_inj_on {α β : Type} [DecidableEq α] [DecidableEq β]
    (f : α → β) (K : List α)
    (hinj : ∀ x ∈ K, ∀ y ∈ K, f x = f y → x = y) :
    ∀ (l : List α), (∀ x ∈ l, x ∈ K) → l.Nodup → ∀ a ∈ K,
      (l.map f).count (f a) = if a ∈ l then 1 else 0 := by
  intro l
  induction l with
  | nil =>
    intro _ _ a _
    simp
  | cons x xs ih =>
    intro hsub hnd a ha
    rcases List.nodup_cons.mp hnd with ⟨hx, hxs⟩
    have hxK : x ∈ K := hsub x (List.mem_cons_self _ _)
    have hsub' : ∀ y ∈ xs, y ∈ K :=
      fun y hy => hsub y (List.mem_cons_of_mem _ hy)
    rw [List.map_cons, List.count_cons]
    by_cases hax : a = x
    · subst hax
      rw [ih hsub' hxs a ha, if_neg hx, if_pos (List.mem_cons_self _ _)]
      simp
    · have hfx : (f x == f a) = false := by
        rw [beq_eq_false_iff_ne]
        intro hfeq
        exact hax ((hinj x hxK a ha hfeq).symm)
      rw [ih hsub' hxs a ha, hfx]
      by_cases hm : a ∈ xs
      · rw [if_pos hm, if_pos (List.mem_cons_of_mem _ hm)]
        simp
      · have hmc : a ∉ x :: xs := by
          intro hc
          rcases List.mem_cons.mp hc with rfl | hc
          · exact hax rfl
          · exact hm hc
        rw [if_neg hm, if_neg hmc]
        simp

/-- Title-casing is injective on the fixed topic vocabulary. -/
theorem pyTitle_inj_on :
    ∀ x ∈ topicKeywords, ∀ y ∈ topicKeywords,
      pyTitle x = pyTitle y → x = y := by decide

/-- C1 fails as stated: the WebPage entity embeds the capture timestamp
(datetime.utcnow().isoformat()), so two calls with identical url, title
and content but different clock readings produce entity lists that are
not membership-wise set-equal. -/
theorem extract_not_idempotent_across_time :
    ¬ setEq
      (okEntities (extract_entities_and_relations "https://a.com/" "T" ""
        "2024-01-01T00:00:00"))
      (okEntities (extract_entities_and_relations "https://a.com/" "T" ""
        "2024-01-02T00:00:00")) := by
  intro h
  have h1 : Entity.webPage "https://a.com/" "T" "a.com" "2024-01-01T00:00:00" ∈
      okEntities (extract_entities_and_relations "https://a.com/" "T" ""
        "2024-01-01T00:00:00") := by decide
  have h2 := (h _).mp h1
  revert h2
  decide

/-- C1 amended: with identical url, title and content, the relation lists
of two calls are membership-wise set-equal regardless of the two clock
readings, and the entity lists agree once the capture timestamp of the
WebPage entity is erased (in particular, two calls observing the same
timestamp produce identical outputs). -/
theorem extract_idempotent_mod_timestamp (url title content n1 n2 : String) :
    setEq (okRelations (extract_entities_and_relations url title content n1))
      (okRelations (extract_entities_and_relations url title content n2)) ∧
    (okEntities (extract_entities_and_relations url title content n1)).map
        scrubTime =
      (okEntities (extract_entities_and_relations url title content n2)).map
        scrubTime := by
  cases hu : urlsplitNetloc url with
  | error e =>
    rw [extract_eq_error title content n1 hu, extract_eq_error title content n2 hu]
    exact ⟨fun x => Iff.rfl, rfl⟩
  | ok domain =>
    obtain ⟨lr, hl⟩ := linkRelations_findLinks_ok url domain content
    rw [extract_eq_ok title content n1 hu hl, extract_eq_ok title content n2 hu hl]
    constructor
    · exact fun x => Iff.rfl
    · rw [okEntities_ok, okEntities_ok, List.map_append, List.map_append]
      rfl

/-- C2 fails as stated: on the well-typed string url "http://[" the
urlparse call raises ValueError "Invalid IPv6 URL", which propagates out
of the extractor. -/
theorem extract_raises_on_bracket_url :
    extract_entities_and_relations "http://\x5b" "t" "c" "n" =
      .error "Invalid IPv6 URL" := rfl

/-- C2 amended: for ASCII url and content, the extractor returns a
result whenever its url is accepted by urlparse — that is, the netloc
has no unmatched square bracket and any bracketed host is a valid IPv6
address or IPvFuture literal; a urlparse failure on the url argument
(such as "http://[" or "http://[abc]") is the only raise path, and the
per-link parses never raise on such content, since matched links
contain no brackets and ASCII netlocs pass the NFKC netloc check.  The
ASCII hypotheses delimit the range on which the modelled urlsplit
coincides with CPython's; they are not needed by the proof over the
model. -/
theorem extract_total_when_url_parses (url title content now : String)
    {domain : String} (hu : urlsplitNetloc url = .ok domain)
    (_hao : url.data.all isAsciiChar = true)
    (_hac : content.data.all isAsciiChar = true) :
    ∃ es rs,
      extract_entities_and_relations url title content now = .ok (es, rs) := by
  obtain ⟨lr, hl⟩ := linkRelations_findLinks_ok url domain content
  exact ⟨_, _, extract_eq_ok title content now hu hl⟩

/-- Witness for the amended C2 at a concrete crawl input. -/
theorem extract_total_when_url_parses_witness :
    ∃ es rs,
      extract_entities_and_relations "https://docs.example.com/auth"
          "Auth Guide" "See authentication docs at https://api.other.com/ref"
          "2024-01-01T00:00:00" =
        .ok (es, rs) :=
  extract_total_when_url_parses "https://docs.example.com/auth" "Auth Guide"
    "See authentication docs at https://api.other.com/ref"
    "2024-01-01T00:00:00"
    (rfl : urlsplitNetloc "https://docs.example.com/auth" = .ok "docs.example.com")
    (by decide) (by decide)

/-- C3 fails as stated: for the host-less url "notaurl" the extractor
does NOT omit the BELONGS_TO relation — the relation loop still runs and
emits BELONGS_TO with an empty domain as target. -/
theorem no_host_counterexample :
    ¬ (∀ r ∈ okRelations (extract_entities_and_relations "notaurl" "t" "" "n"),
        r.relation ≠ "BELONGS_TO") := by decide

/-- C3 amended: for every url that parses to an empty host, the extractor
still returns the WebPage entity with empty domain, and still EMITS a
BELONGS_TO relation whose target Domain is the empty string, rather than
omitting it. -/
theorem no_host_still_emits_belongs_to (url title content now : String)
    (hu : urlsplitNetloc url = .ok "") :
    Entity.webPage url (if title = "" then url else title) "" now ∈
      okEntities (extract_entities_and_relations url title content now) ∧
    (⟨"WebPage", url, "Domain", "", "BELONGS_TO"⟩ : RelationEdge) ∈
      okRelations (extract_entities_and_relations url title content now) := by
  obtain ⟨lr, hl⟩ := linkRelations_findLinks_ok url "" content
  rw [extract_eq_ok title content now hu hl]
  constructor
  · exact List.mem_append_left _ (List.mem_cons_self _ _)
  · exact List.mem_cons_self _ _

/-- Witness for the amended C3 at the host-less url "notaurl". -/
theorem no_host_still_emits_belongs_to_witness :
    Entity.webPage "notaurl" (if ("t" : String) = "" then "notaurl" else "t")
        "" "n" ∈
      okEntities (extract_entities_and_relations "notaurl" "t" "" "n") ∧
    (⟨"WebPage", "notaurl", "Domain", "", "BELONGS_TO"⟩ : RelationEdge) ∈
      okRelations (extract_entities_and_relations "notaurl" "t" "" "n") :=
  no_host_still_emits_belongs_to "notaurl" "t" "" "n" rfl

/-- C6: topic detection is case-insensitive, whole-word and deduplicated:
for every successfully extracted page, each keyword of the fixed
vocabulary yields exactly one title-cased Topic entity and exactly one
COVERS_TOPIC relation when it is matched by the boundary-respecting scan
of the lower-cased content, and none otherwise; in particular content
containing "Authentication" and "authentication" yields exactly one
Topic named "Authentication", and content containing only
"oauthentication" yields none. -/
theorem topic_detection_dedup_whole_word :
    (∀ url title content now domain kw,
      urlsplitNetloc url = .ok domain → kw ∈ topicKeywords →
      ((okEntities (extract_entities_and_relations url title content now)).count
          (Entity.topic (pyTitle kw)) =
        if kw ∈ scanTopics false (pyLower content).data then 1 else 0) ∧
      ((okRelations (extract_entities_and_relations url title content now)).count
          (⟨"WebPage", url, "Topic", pyTitle kw, "COVERS_TOPIC"⟩ :
            RelationEdge) =
        if kw ∈ scanTopics false (pyLower content).data then 1 else 0)) ∧
    (okEntities (extract_entities_and_relations "https://e.com/" "t"
        "Authentication and authentication" "n")).count
      (Entity.topic "Authentication") = 1 ∧
    (okEntities (extract_entities_and_relations "https://e.com/" "t"
        "See oauthentication here" "n")).count
      (Entity.topic "Authentication") = 0 := by
  refine ⟨?_, by decide, by decide⟩
  intro url title content now domain kw hu hkw
  obtain ⟨lr, hl⟩ := linkRelations_findLinks_ok url domain content
  have hEnt := count_map_eq_of_inj_on (fun t => Entity.topic (pyTitle t))
    topicKeywords
    (fun x hx y hy h => pyTitle_inj_on x hx y hy (Entity.topic.inj h))
    (dedupFirst (scanTopics false (pyLower content).data))
    (fun x hx => mem_scanTopics_keywords _ _ x (mem_dedupFirst.mp hx))
    (dedupFirst_nodup _) kw hkw
  have hRel := count_map_eq_of_inj_on
    (fun t =>
      (⟨"WebPage", url, "Topic", pyTitle t, "COVERS_TOPIC"⟩ : RelationEdge))
    topicKeywords
    (fun x hx y hy h =>
      pyTitle_inj_on x hx y hy (RelationEdge.mk.inj h).2.2.2.1)
    (dedupFirst (scanTopics false (pyLower content).data))
    (fun x hx => mem_scanTopics_keywords _ _ x (mem_dedupFirst.mp hx))
    (dedupFirst_nodup _) kw hkw
  rw [extract_eq_ok title content now hu hl]
  constructor
  · rw [okEntities_ok, List.count_append, hEnt]
    have h2 : ([Entity.webPage url (if title = "" then url else title)
        domain now, Entity.domainE domain] : List Entity).count
          (Entity.topic (pyTitle kw)) = 0 := by
      rw [List.count_eq_zero]
      intro hmem
      rcases List.mem_cons.mp hmem with heq | hmem
      · cases heq
      · rcases List.mem_cons.mp hmem with heq | hmem
        · cases heq
        · cases hmem
    rw [h2]
    by_cases hmem : kw ∈ scanTopics false (pyLower content).data
    · rw [if_pos (mem_dedupFirst.mpr hmem), if_pos hmem]
    · rw [if_neg (fun hc => hmem (mem_dedupFirst.mp hc)), if_neg hmem]
  · rw [okRelations_ok, List.count_cons, List.count_append, hRel]
    have h3 : lr.count
        (⟨"WebPage", url, "Topic", pyTitle kw, "COVERS_TOPIC"⟩ :
          RelationEdge) = 0 := by
      rw [List.count_eq_zero]
      intro hmem
      rcases linkRelations_mem hl _ hmem with ⟨l', _, n, heq, _⟩
      simp at heq
    have h4 : ((⟨"WebPage", url, "Domain", domain, "BELONGS_TO"⟩ :
        RelationEdge) ==
          (⟨"WebPage", url, "Topic", pyTitle kw, "COVERS_TOPIC"⟩ :
            RelationEdge)) = false := by
      rw [beq_eq_false_iff_ne]
      intro heq
      simp at heq
    rw [h3, h4]
    by_cases hmem : kw ∈ scanTopics false (pyLower content).data
    · rw [if_pos (mem_dedupFirst.mpr hmem), if_pos hmem]
      simp
    · rw [if_neg (fun hc => hmem (mem_dedupFirst.mp hc)), if_neg hmem]
      simp

/-- Witness for C6 at a concrete matched keyword. -/
theorem topic_detection_dedup_whole_word_witness :
    (okEntities (extract_entities_and_relations "https://e.com/" "T"
        "about api stuff" "n")).count (Entity.topic (pyTitle "api")) =
      (if "api" ∈ scanTopics false (pyLower "about api stuff").data
       then 1 else 0) :=
  (topic_detection_dedup_whole_word.1 "https://e.com/" "T" "about api stuff"
    "n" "e.com" "api" rfl (by decide)).1

/-- C7: link extraction examines at most the first 20 pattern matches in
document order — every LINKS_TO relation targets one of those matches and
there are at most 20 of them — and never emits a LINKS_TO relation whose
target host equals the source domain (nor one with an empty target
host). -/
theorem links_capped_and_cross_domain (url title content now : String) :
    ((okRelations (extract_entities_and_relations url title content now)).countP
        (fun r => r.relation == "LINKS_TO") ≤ 20) ∧
    (∀ r ∈ okRelations (extract_entities_and_relations url title content now),
      r.relation = "LINKS_TO" →
        (∃ l ∈ (findLinks content.data).take 20, r.to_id = String.mk l) ∧
        urlsplitNetloc r.to_id ≠ urlsplitNetloc url ∧
        urlsplitNetloc r.to_id ≠ .ok "") := by
  cases hu : urlsplitNetloc url with
  | error e =>
    rw [extract_eq_error title content now hu, okRelations_error]
    exact ⟨by simp, fun r hr => absurd hr (List.not_mem_nil r)⟩
  | ok domain =>
    obtain ⟨lr, hl⟩ := linkRelations_findLinks_ok url domain content
    rw [extract_eq_ok title content now hu hl, okRelations_ok]
    constructor
    · rw [List.countP_cons, List.countP_append]
      have h1 : (((⟨"WebPage", url, "Domain", domain, "BELONGS_TO"⟩ :
          RelationEdge)).relation == "LINKS_TO") = false := rfl
      have h2 : (List.map
          (fun t =>
            (⟨"WebPage", url, "Topic", pyTitle t, "COVERS_TOPIC"⟩ :
              RelationEdge))
          (dedupFirst (scanTopics false (pyLower content).data))).countP
            (fun r => r.relation == "LINKS_TO") = 0 := by
        rw [List.countP_eq_zero]
        intro a ha
        rcases List.mem_map.mp ha with ⟨t, _, rfl⟩
        simp
      have h3 : lr.countP (fun r => r.relation == "LINKS_TO") ≤ 20 :=
        le_trans (List.countP_le_length _)
          (le_trans (linkRelations_length hl) (List.length_take_le _ _))
      rw [h1, h2]
      simpa using h3
    · intro r hr hrel
      rcases List.mem_cons.mp hr with rfl | hr
      · exact absurd hrel (by simp)
      rcases List.mem_append.mp hr with hr | hr
      · rcases List.mem_map.mp hr with ⟨t, _, rfl⟩
        exact absurd hrel (by simp)
      · rcases linkRelations_mem hl r hr with ⟨l, hlmem, n, rfl, hn, hne, hnd⟩
        dsimp only
        refine ⟨⟨l, hlmem, rfl⟩, ?_, ?_⟩
        · rw [hn]
          intro hc
          injection hc with hc
          exact hnd hc
        · rw [hn]
          intro hc
          injection hc with hc
          exact hne hc

/-- Witness for C7 at a concrete emitted LINKS_TO relation. -/
theorem links_capped_and_cross_domain_witness :
    (∃ l ∈ (findLinks "See http://b.com/x".data).take 20,
        (⟨"WebPage", "https://a.com/", "WebPage", "http://b.com/x",
          "LINKS_TO"⟩ : RelationEdge).to_id = String.mk l) ∧
    urlsplitNetloc (⟨"WebPage", "https://a.com/", "WebPage",
        "http://b.com/x", "LINKS_TO"⟩ : RelationEdge).to_id ≠
      urlsplitNetloc "https://a.com/" ∧
    urlsplitNetloc (⟨"WebPage", "https://a.com/", "WebPage",
        "http://b.com/x", "LINKS_TO"⟩ : RelationEdge).to_id ≠ .ok "" :=
  (links_capped_and_cross_domain "https://a.com/" "t" "See http://b.com/x"
      "n").2
    (⟨"WebPage", "https://a.com/", "WebPage", "http://b.com/x",
      "LINKS_TO"⟩ : RelationEdge)
    (by decide) rfl

/-- C9: every relation emitted by the extractor originates at the input
page: its from-type is WebPage and its from-id is the exact input url. -/
theorem relations_originate_at_input_page (url title content now : String) :
    ∀ r ∈ okRelations (extract_entities_and_relations url title content now),
      r.from_type = "WebPage" ∧ r.from_id = url := by
  intro r hr
  cases hu : urlsplitNetloc url with
  | error e =>
    rw [extract_eq_error title content now hu, okRelations_error] at hr
    cases hr
  | ok domain =>
    obtain ⟨lr, hl⟩ := linkRelations_findLinks_ok url domain content
    rw [extract_eq_ok title content now hu hl, okRelations_ok] at hr
    rcases List.mem_cons.mp hr with rfl | hr
    · exact ⟨rfl, rfl⟩
    rcases List.mem_append.mp hr with hr | hr
    · rcases List.mem_map.mp hr with ⟨t, _, rfl⟩
      exact ⟨rfl, rfl⟩
    · rcases linkRelations_mem hl r hr with ⟨l, _, n, rfl, _⟩
      exact ⟨rfl, rfl⟩

/-- Witness for C9 at a concrete emitted relation. -/
theorem relations_originate_at_input_page_witness :
    (⟨"WebPage", "https://a.com/", "Domain", "a.com", "BELONGS_TO"⟩ :
        RelationEdge).from_type = "WebPage" ∧
    (⟨"WebPage", "https://a.com/", "Domain", "a.com", "BELONGS_TO"⟩ :
        RelationEdge).from_id = "https://a.com/" :=
  relations_originate_at_input_page "https://a.com/" "t" "" "n"
    (⟨"WebPage", "https://a.com/", "Domain", "a.com", "BELONGS_TO"⟩ :
      RelationEdge)
    (by decide)

/-- C10: outbound links are not deduplicated within a call: a content in
which the same cross-domain URL occurs twice among the first 20 pattern
matches yields two identical LINKS_TO relations. -/
theorem duplicate_links_not_merged :
    ((findLinks "http://b.com/x and again http://b.com/x".data).take 20).count
        "http://b.com/x".data = 2 ∧
    (okRelations (extract_entities_and_relations "https://a.com/" "t"
        "http://b.com/x and again http://b.com/x" "n")).count
      (⟨"WebPage", "https://a.com/", "WebPage", "http://b.com/x",
        "LINKS_TO"⟩ : RelationEdge) = 2 := by
  decide
